import Mathlib

/-!
Shallow embedding of the HuskyMarket campus-marketplace application
(React + Firebase backend-as-a-service).

Modelling conventions:
* JavaScript strings are modelled as `List Char` (`Str`); `String.prototype.toLowerCase`,
  `includes` and `endsWith` become `jsToLower`, `jsIncludes` and `jsEndsWith`.
* Firestore collections are association lists from document id to document data (`Docs`);
  `getDoc` is `getDocOpt`, `updateDoc` is `updateDocAt` (it fails when the document is
  missing, which call sites check via `hasDoc`), `deleteDoc` is `deleteDocAt` (it succeeds
  whether or not the document exists), and `addDoc` appends a pair under a caller-supplied
  fresh id.
* `Timestamp.now()` / ISO date strings are modelled as `Nat` instants (comparison of ISO
  strings via `Date.getTime()` agrees with numeric comparison of the instants).
* Backend calls that can fail nondeterministically (Firebase auth, storage uploads and
  deletes, network errors) are modelled by explicit outcome parameters passed to the
  operation, so each operation is a pure function of the database state and the outcomes.
* `Array.prototype.sort(cmp)` is modelled by `List.insertionSort` with the total preorder
  induced by the comparator `cmp`.
-/

namespace HuskyMarket

/-- JavaScript strings, modelled as lists of characters. -/
abbrev Str := List Char

/-- Model of `String.prototype.toLowerCase`. -/
def jsToLower (s : Str) : Str := s.map Char.toLower

/-- Model of `String.prototype.includes` (substring test). -/
def jsIncludes (s sub : Str) : Bool := decide (sub <:+: s)

/-- Model of `String.prototype.endsWith`. -/
def jsEndsWith (s post : Str) : Bool := decide (post <:+ s)

/-- A Firestore collection: an association list from document id to document data. -/
abbrev Docs (α : Type) := List (Str × α)

/-- Model of `getDoc`: the data of the document with the given id, if it exists. -/
def getDocOpt {α : Type} (docs : Docs α) (id : Str) : Option α :=
  (docs.find? (fun p => p.1 == id)).map Prod.snd

/-- Whether a document with the given id exists (`snapshot.exists()`). -/
def hasDoc {α : Type} (docs : Docs α) (id : Str) : Bool :=
  docs.any (fun p => p.1 == id)

/-- Model of `updateDoc` applied to the document with the given id. -/
def updateDocAt {α : Type} (docs : Docs α) (id : Str) (f : α → α) : Docs α :=
  docs.map (fun p => if p.1 == id then (p.1, f p.2) else p)

/-- Model of `deleteDoc`: removes the document with the given id (a no-op when absent). -/
def deleteDocAt {α : Type} (docs : Docs α) (id : Str) : Docs α :=
  docs.filter (fun p => p.1 != id)

/-- `src/types/index.ts` interface `User`, as stored in the `users` collection
(the document stores the `id` field itself, see `createUserAccount`). -/
structure UserDoc where
  id : Str
  email : Str
  name : Str
  uwNetId : Str
  joinedDate : Nat
  isVerified : Bool
deriving DecidableEq

/-- `src/types/index.ts` interface `Item`, as stored in the `items` collection
(the stored document carries `sellerId`; the `id` and embedded `seller` are added
when reading). -/
structure ItemDoc where
  title : Str
  description : Str
  price : Int
  category : Str
  condition : Str
  images : List Str
  sellerId : Str
  createdAt : Nat
  isAvailable : Bool
  location : Str
deriving DecidableEq

/-- `src/types/index.ts` interface `Message`, as stored in the `messages` collection. -/
structure MessageDoc where
  conversationId : Str
  senderId : Str
  content : Str
  timestamp : Nat
  isRead : Bool
deriving DecidableEq

/-- A `conversations` document (`messageService.ts` `conversationData`). -/
structure ConvDoc where
  itemId : Str
  participants : List Str
  createdAt : Nat
  updatedAt : Nat
deriving DecidableEq

/-- The backend state: Firebase auth accounts, the three Firestore collections,
and the storage bucket (a list of object paths). -/
structure DB where
  authUsers : List Str
  users : Docs UserDoc
  items : Docs ItemDoc
  conversations : Docs ConvDoc
  messages : Docs MessageDoc
  storage : List Str
deriving DecidableEq

/-! ## itemService.ts -/

/-- `itemService.ts` line 85: `const maxSize = 5 * 1024 * 1024`. -/
def maxSize : Nat := 5 * 1024 * 1024

/-- `itemService.ts` line 93: the allowed MIME types. -/
def allowedTypes : List Str :=
  [("image/jpeg".toList), ("image/jpg".toList), ("image/png".toList),
   ("image/gif".toList), ("image/webp".toList)]

/-- A browser `File` value, with the fields `createItem` inspects. -/
structure FileInput where
  name : Str
  size : Nat
  mimeType : Str
deriving DecidableEq

/-- The client-side validation at the top of `createItem` (`itemService.ts` lines 79-98):
`some msg` is the message of the error thrown by the first failing check, `none` means
all checks pass. -/
def validateImages (imageFiles : List FileInput) : Option Str :=
  if imageFiles.length == 0 then
    some ("At least one image is required".toList)
  else
    match imageFiles.find? (fun f => decide (maxSize < f.size)) with
    | some f => some (("Image ".toList) ++ f.name ++ (" is too large. Maximum size is 5MB.".toList))
    | none =>
      match imageFiles.find? (fun f => !(allowedTypes.contains f.mimeType)) with
      | some f => some (("Image ".toList) ++ f.name ++ (" has an unsupported format. Please use JPG, PNG, GIF, or WebP.".toList))
      | none => none

/-- The `itemData` argument of `createItem` (`Omit<Item, 'id' | 'createdAt' | 'images'>`,
minus the embedded `seller` object, which Firestore persists but no claim depends on). -/
structure ItemInput where
  title : Str
  description : Str
  price : Int
  category : Str
  condition : Str
  sellerId : Str
  isAvailable : Bool
  location : Str
deriving DecidableEq

/-- `itemService.ts` `createItem` (lines 74-127).  `newId` is the fresh id produced by
`addDoc`; `uploadedPaths` are the storage objects actually written by the
`uploadItemImages` attempt (with `Promise.all`, some uploads may have completed even when
the attempt as a whole fails); `uploadResult` is the outcome of `uploadItemImages`.
The returned pair is (thrown error or returned id, resulting backend state). -/
def createItem (db : DB) (newId : Str) (now : Nat) (itemData : ItemInput)
    (imageFiles : List FileInput) (uploadedPaths : List Str)
    (uploadResult : Except Str (List Str)) : Except Str Str × DB :=
  match validateImages imageFiles with
  | some msg => (Except.error msg, db)
  | none =>
    let doc0 : ItemDoc :=
      ⟨itemData.title, itemData.description, itemData.price, itemData.category,
        itemData.condition, [], itemData.sellerId, now, itemData.isAvailable,
        itemData.location⟩
    let db1 : DB := { db with items := db.items ++ [(newId, doc0)] }
    match uploadResult with
    | Except.error uploadError =>
      (Except.error uploadError,
        { db1 with
            items := deleteDocAt db1.items newId,
            storage := db1.storage ++ uploadedPaths })
    | Except.ok imageUrls =>
      (Except.ok newId,
        { db1 with
            items := updateDocAt db1.items newId (fun d => { d with images := imageUrls }),
            storage := db1.storage ++ uploadedPaths })

/-- An `Item` as returned to the UI: document id, stored fields, embedded seller. -/
structure ItemView where
  id : Str
  doc : ItemDoc
  seller : UserDoc
deriving DecidableEq

/-- `itemService.ts` `getItemById` (lines 161-189).  `backendFails` models a backend
error during the calls inside the `try` block; the `catch` turns it into `null`.
The function is total: it returns an `Option` in every case and never throws. -/
def getItemById (db : DB) (backendFails : Bool) (itemId : Str) : Option ItemView :=
  if backendFails then none
  else
    match getDocOpt db.items itemId with
    | none => none
    | some itemData =>
      match getDocOpt db.users itemData.sellerId with
      | none => none
      | some sellerData => some ⟨itemId, itemData, sellerData⟩

/-- One iteration of the `deleteItemImages` loop (`itemService.ts` lines 50-65):
`parsePath` models `new URL` plus the `/\/o\/(.+)\?/` match plus `decodeURIComponent`
(no storage call is made when it yields nothing), and `deleteOk` models whether the
`deleteObject` call succeeds; an individual failure is caught and skipped. -/
def deleteOneImage (parsePath : Str → Option Str) (deleteOk : Str → Bool)
    (storage : List Str) (imageUrl : Str) : List Str :=
  match parsePath imageUrl with
  | none => storage
  | some imagePath =>
    if deleteOk imagePath then storage.filter (fun q => q != imagePath) else storage

/-- `itemService.ts` `deleteItemImages` (lines 48-72): best-effort deletion of every
image object; failures are logged and skipped, nothing is rolled back or rethrown. -/
def deleteItemImages (parsePath : Str → Option Str) (deleteOk : Str → Bool)
    (storage : List Str) (imageUrls : List Str) : List Str :=
  imageUrls.foldl (deleteOneImage parsePath deleteOk) storage

/-- `itemService.ts` `deleteItem` (lines 237-257): read the item document, delete its
stored images when it exists and lists images, then delete the document unconditionally. -/
def deleteItem (db : DB) (parsePath : Str → Option Str) (deleteOk : Str → Bool)
    (itemId : Str) : DB :=
  let storage1 : List Str :=
    match getDocOpt db.items itemId with
    | none => db.storage
    | some itemData =>
      if 0 < itemData.images.length then
        deleteItemImages parsePath deleteOk db.storage itemData.images
      else db.storage
  { db with storage := storage1, items := deleteDocAt db.items itemId }

/-! ## authService (the auth service module: `createUserAccount` and friends) -/

/-- `createUserAccount` (auth service, lines 54-90).  `authOutcome` is the outcome of
`createUserWithEmailAndPassword` (`some uid` on success, which creates the auth
account; `none` on failure); `profileOk` is the outcome of `updateProfile`.
The returned pair is (thrown error or returned user, resulting backend state). -/
def createUserAccount (db : DB) (authOutcome : Option Str) (profileOk : Bool)
    (now : Nat) (email _password name uwNetId : Str) : Except Str UserDoc × DB :=
  if !(jsEndsWith email ("@uw.edu".toList)) then
    (Except.error ("Must use a valid @uw.edu email address".toList), db)
  else
    match authOutcome with
    | none => (Except.error ("Failed to create account".toList), db)
    | some uid =>
      let db1 : DB := { db with authUsers := db.authUsers ++ [uid] }
      if !profileOk then
        (Except.error ("Failed to create account".toList), db1)
      else
        let userData : UserDoc := ⟨uid, email, name, uwNetId, now, false⟩
        (Except.ok userData, { db1 with users := db1.users ++ [(uid, userData)] })

/-! ## messageService.ts -/

/-- `messageService.ts` `createConversation` (lines 18-56): query the conversations of
the item containing the buyer, return the first that also contains the seller, otherwise
create a fresh conversation with exactly the two participants. -/
def createConversation (db : DB) (newId : Str) (now : Nat)
    (itemId buyerId sellerId : Str) : Str × DB :=
  match (db.conversations.filter
      (fun p => p.2.itemId == itemId && p.2.participants.contains buyerId)).find?
      (fun p => p.2.participants.contains sellerId) with
  | some p => (p.1, db)
  | none =>
    let conversationData : ConvDoc := ⟨itemId, [buyerId, sellerId], now, now⟩
    (newId, { db with conversations := db.conversations ++ [(newId, conversationData)] })

/-- `messageService.ts` `sendMessage` (lines 58-83): add the message, then refresh the
conversation's `updatedAt` via `updateDoc` (which fails when the conversation document
does not exist; the message has been added by then). -/
def sendMessage (db : DB) (newMsgId : Str) (now1 now2 : Nat)
    (conversationId senderId content : Str) : Except Str DB :=
  let msg : MessageDoc := ⟨conversationId, senderId, content, now1, false⟩
  let db1 : DB := { db with messages := db.messages ++ [(newMsgId, msg)] }
  if hasDoc db1.conversations conversationId then
    let convs2 := updateDocAt db1.conversations conversationId (fun c => { c with updatedAt := now2 })
    Except.ok { db1 with conversations := convs2 }
  else
    Except.error ("Failed to send message".toList)

/-- The ascending-timestamp order induced by the comparator
`(a, b) => new Date(a.timestamp).getTime() - new Date(b.timestamp).getTime()`. -/
def msgTsLe (a b : Str × MessageDoc) : Prop := a.2.timestamp ≤ b.2.timestamp

instance : DecidableRel msgTsLe :=
  fun a b => inferInstanceAs (Decidable (a.2.timestamp ≤ b.2.timestamp))

instance : IsTotal (Str × MessageDoc) msgTsLe :=
  ⟨fun a b => Nat.le_total a.2.timestamp b.2.timestamp⟩

instance : IsTrans (Str × MessageDoc) msgTsLe :=
  ⟨fun _ _ _ => Nat.le_trans⟩

/-- The descending-timestamp order induced by the comparator
`(a, b) => b.timestamp.getTime() - a.timestamp.getTime()`. -/
def msgTsGe (a b : Str × MessageDoc) : Prop := b.2.timestamp ≤ a.2.timestamp

instance : DecidableRel msgTsGe :=
  fun a b => inferInstanceAs (Decidable (b.2.timestamp ≤ a.2.timestamp))

instance : IsTotal (Str × MessageDoc) msgTsGe :=
  ⟨fun a b => Nat.le_total b.2.timestamp a.2.timestamp⟩

instance : IsTrans (Str × MessageDoc) msgTsGe :=
  ⟨fun _ _ _ hab hbc => Nat.le_trans hbc hab⟩

/-- The Firestore query `where('conversationId', '==', conversationId)` over the
`messages` collection (no ordering clause). -/
def convMsgs (db : DB) (conversationId : Str) : List (Str × MessageDoc) :=
  db.messages.filter (fun p => p.2.conversationId == conversationId)

/-- `messageService.ts` `getConversationMessages` (lines 85-108): unordered query,
then a client-side ascending sort by timestamp. -/
def getConversationMessages (db : DB) (conversationId : Str) : List (Str × MessageDoc) :=
  List.insertionSort msgTsLe (convMsgs db conversationId)

/-- The list delivered to the callback of `subscribeToMessages` (lines 197-219) for a
snapshot of the given state: the same unordered query and the same client-side
ascending sort. -/
def subscribeToMessagesSnapshot (db : DB) (conversationId : Str) : List (Str × MessageDoc) :=
  List.insertionSort msgTsLe (convMsgs db conversationId)

/-- A `Conversation` as returned to the UI by `getUserConversations`. -/
structure ConvView where
  id : Str
  participants : List UserDoc
  item : ItemView
  lastMessage : Option (Str × MessageDoc)
  updatedAt : Nat
deriving DecidableEq

/-- The descending-`updatedAt` order induced by the comparator
`(a, b) => new Date(b.updatedAt).getTime() - new Date(a.updatedAt).getTime()`. -/
def convUpdGe (a b : ConvView) : Prop := b.updatedAt ≤ a.updatedAt

instance : DecidableRel convUpdGe :=
  fun a b => inferInstanceAs (Decidable (b.updatedAt ≤ a.updatedAt))

instance : IsTotal ConvView convUpdGe :=
  ⟨fun a b => Nat.le_total b.updatedAt a.updatedAt⟩

instance : IsTrans ConvView convUpdGe :=
  ⟨fun _ _ _ hab hbc => Nat.le_trans hbc hab⟩

/-- The loop body of `getUserConversations` (`messageService.ts` lines 122-187) for one
conversation document: skip it when its item or the item's seller is missing, otherwise
build the view with the existing participants, the embedded item, and the denormalized
last message (the head of the descending-timestamp sort of the conversation's messages). -/
def buildConvView (db : DB) (p : Str × ConvDoc) : Option ConvView :=
  match getDocOpt db.items p.2.itemId with
  | none => none
  | some itemData =>
    match getDocOpt db.users itemData.sellerId with
    | none => none
    | some sellerData =>
      let participants := p.2.participants.filterMap (fun pid => getDocOpt db.users pid)
      let lastMessage := (List.insertionSort msgTsGe (convMsgs db p.1)).head?
      some ⟨p.1, participants, ⟨p.2.itemId, itemData, sellerData⟩, lastMessage, p.2.updatedAt⟩

/-- `messageService.ts` `getUserConversations` (lines 110-195): unordered
`array-contains` query, per-conversation enrichment, then a client-side descending
sort by `updatedAt`. -/
def getUserConversations (db : DB) (userId : Str) : List ConvView :=
  List.insertionSort convUpdGe
    ((db.conversations.filter (fun p => p.2.participants.contains userId)).filterMap
      (buildConvView db))

/-! ## Marketplace.tsx -/

/-- The `sortBy` state of `Marketplace.tsx`. -/
inductive SortBy
  | newest
  | priceLow
  | priceHigh
  | popular
deriving DecidableEq

/-- The filter predicate of `Marketplace.tsx` `filteredItems` (lines 18-42), with the
early `return false` branches written as nested conditionals. -/
def marketplaceFilter (searchQuery selectedCategory : Str) (priceLo priceHi : Int)
    (item : ItemDoc) : Bool :=
  if searchQuery != [] &&
      !(jsIncludes (jsToLower item.title) (jsToLower searchQuery)) &&
      !(jsIncludes (jsToLower item.description) (jsToLower searchQuery)) &&
      !(jsIncludes (jsToLower item.category) (jsToLower searchQuery)) then
    false
  else if selectedCategory != [] && item.category != selectedCategory then
    false
  else if decide (item.price < priceLo) || decide (priceHi < item.price) then
    false
  else
    item.isAvailable

/-- Ascending price (`sortBy = 'price-low'`, comparator `a.price - b.price`). -/
def priceLe (a b : ItemDoc) : Prop := a.price ≤ b.price

instance : DecidableRel priceLe :=
  fun a b => inferInstanceAs (Decidable (a.price ≤ b.price))

instance : IsTotal ItemDoc priceLe := ⟨fun a b => le_total a.price b.price⟩

instance : IsTrans ItemDoc priceLe := ⟨fun _ _ _ => le_trans⟩

/-- Descending price (`sortBy = 'price-high'`, comparator `b.price - a.price`). -/
def priceGe (a b : ItemDoc) : Prop := b.price ≤ a.price

instance : DecidableRel priceGe :=
  fun a b => inferInstanceAs (Decidable (b.price ≤ a.price))

instance : IsTotal ItemDoc priceGe := ⟨fun a b => le_total b.price a.price⟩

instance : IsTrans ItemDoc priceGe := ⟨fun _ _ _ hab hbc => le_trans hbc hab⟩

/-- Descending creation time (`sortBy = 'newest'` and `'popular'`, comparator
`new Date(b.createdAt).getTime() - new Date(a.createdAt).getTime()`). -/
def createdGe (a b : ItemDoc) : Prop := b.createdAt ≤ a.createdAt

instance : DecidableRel createdGe :=
  fun a b => inferInstanceAs (Decidable (b.createdAt ≤ a.createdAt))

instance : IsTotal ItemDoc createdGe := ⟨fun a b => Nat.le_total b.createdAt a.createdAt⟩

instance : IsTrans ItemDoc createdGe := ⟨fun _ _ _ hab hbc => Nat.le_trans hbc hab⟩

/-- `Marketplace.tsx` `filteredItems` (lines 17-63): filter, then sort per the chosen
sort key. -/
def filteredItems (items : List ItemDoc) (searchQuery selectedCategory : Str)
    (priceLo priceHi : Int) (sortKey : SortBy) : List ItemDoc :=
  let filtered := items.filter (marketplaceFilter searchQuery selectedCategory priceLo priceHi)
  match sortKey with
  | SortBy.priceLow => List.insertionSort priceLe filtered
  | SortBy.priceHigh => List.insertionSort priceGe filtered
  | SortBy.popular => List.insertionSort createdGe filtered
  | SortBy.newest => List.insertionSort createdGe filtered

/-! ## Sample data for the concrete witnesses -/

/-- A sample user document. -/
def userW : UserDoc :=
  ⟨("u1".toList), ("a@uw.edu".toList), ("Ann".toList), ("ann".toList), 1, false⟩

/-- A second sample user document. -/
def user2W : UserDoc :=
  ⟨("u2".toList), ("b@uw.edu".toList), ("Bob".toList), ("bob".toList), 1, false⟩

/-- A sample stored item document, sold by `userW`. -/
def itemW : ItemDoc :=
  ⟨("Desk".toList), ("Wood desk".toList), 40, ("furniture".toList), ("good".toList),
   [("items/i0/a.png".toList)], ("u1".toList), 3, true, ("HUB".toList)⟩

/-- A sample valid image file. -/
def fileW : FileInput := ⟨("a.png".toList), 100, ("image/png".toList)⟩

/-- A sample oversized image file (one byte over the 5 MB limit). -/
def fileBigW : FileInput := ⟨("b.png".toList), 5 * 1024 * 1024 + 1, ("image/png".toList)⟩

/-- Sample item-creation input. -/
def inputW : ItemInput :=
  ⟨("Desk".toList), ("Wood desk".toList), 40, ("furniture".toList), ("good".toList),
   ("u1".toList), true, ("HUB".toList)⟩

/-- A sample conversation about `itemW` between `user2W` (buyer) and `userW` (seller). -/
def convW : ConvDoc := ⟨("i0".toList), [("u2".toList), ("u1".toList)], 2, 2⟩

/-- A sample message in conversation `c1`. -/
def msgW : MessageDoc := ⟨("c1".toList), ("u2".toList), ("hi".toList), 4, false⟩

/-- A sample backend state holding the documents above. -/
def dbW : DB :=
  ⟨[("u1".toList), ("u2".toList)],
   [(("u1".toList), userW), (("u2".toList), user2W)],
   [(("i0".toList), itemW)],
   [(("c1".toList), convW)],
   [(("m1".toList), msgW)],
   [("items/i0/a.png".toList)]⟩

/-! ## Claims -/

/-- Claim C10: `getItemById` is total and never throws at the public interface (its
model returns an `Option` in every case): it returns `none` when the backend call
errors, when the item document does not exist, and when the seller user document
does not exist; it returns a populated item (with its seller embedded) exactly when
both documents exist and no backend error occurs. -/
theorem getItemById_total_spec (db : DB) (backendFails : Bool) (itemId : Str) :
    (backendFails = true → getItemById db backendFails itemId = none) ∧
    (getDocOpt db.items itemId = none → getItemById db backendFails itemId = none) ∧
    (∀ i, getDocOpt db.items itemId = some i → getDocOpt db.users i.sellerId = none →
      getItemById db backendFails itemId = none) ∧
    (∀ i s, backendFails = false → getDocOpt db.items itemId = some i →
      getDocOpt db.users i.sellerId = some s →
      getItemById db backendFails itemId = some ⟨itemId, i, s⟩) := by
  refine ⟨fun h => by simp [getItemById, h], fun h => by simp [getItemById, h],
    fun i hi hs => by simp [getItemById, hi, hs], fun i s hb hi hs => by
      simp [getItemById, hb, hi, hs]⟩

/-- Witness for C10: in the sample state, a backend error yields `null`. -/
theorem getItemById_total_spec_witness :
    getItemById dbW true ("i0".toList) = none :=
  (getItemById_total_spec dbW true ("i0".toList)).1 rfl

/-- Claim C9: `createUserAccount` rejects every email that does not end with
`@uw.edu` before any backend call (the state comes back unchanged: no auth account
and no user document), and every successfully created user document has
`isVerified = false`. -/
theorem createUserAccount_spec (db : DB) (authOutcome : Option Str) (profileOk : Bool)
    (now : Nat) (email password name uwNetId : Str) :
    (jsEndsWith email ("@uw.edu".toList) = false →
      createUserAccount db authOutcome profileOk now email password name uwNetId =
        (Except.error ("Must use a valid @uw.edu email address".toList), db)) ∧
    (∀ u db2,
      createUserAccount db authOutcome profileOk now email password name uwNetId =
        (Except.ok u, db2) →
      u.isVerified = false ∧ db2.users = db.users ++ [(u.id, u)] ∧
      jsEndsWith email ("@uw.edu".toList) = true) := by
  constructor
  · intro h
    unfold createUserAccount
    rw [h]
    simp
  · intro u db2 h
    unfold createUserAccount at h
    by_cases he : jsEndsWith email ("@uw.edu".toList)
    · rw [he] at h
      simp only [Bool.not_true, Bool.false_eq_true, if_false, ite_false] at h
      cases authOutcome with
      | none => simp at h
      | some uid =>
        simp only [] at h
        by_cases hp : profileOk
        · rw [hp] at h
          simp only [Bool.not_true, Bool.false_eq_true, if_false, ite_false] at h
          rw [Prod.mk.injEq] at h
          obtain ⟨h1, h2⟩ := h
          cases h1
          subst h2
          exact ⟨rfl, rfl, he⟩
        · rw [Bool.not_eq_true] at hp
          rw [hp] at h
          simp at h
    · rw [Bool.not_eq_true] at he
      rw [he] at h
      simp at h

/-- Witness for C9: a non-campus email is rejected with the state unchanged. -/
theorem createUserAccount_spec_witness :
    createUserAccount dbW none true 1 ("a@gmail.com".toList) ("pw".toList)
        ("A".toList) ("aa".toList) =
      (Except.error ("Must use a valid @uw.edu email address".toList), dbW) :=
  (createUserAccount_spec dbW none true 1 ("a@gmail.com".toList) ("pw".toList)
    ("A".toList) ("aa".toList)).1 (by decide)

/-- If the image list is empty, or some file is oversized, or some file has a
disallowed MIME type, the validation at the top of `createItem` throws. -/
theorem validateImages_some_of_invalid (imageFiles : List FileInput)
    (hbad : imageFiles = [] ∨ (∃ f ∈ imageFiles, maxSize < f.size) ∨
      (∃ f ∈ imageFiles, f.mimeType ∉ allowedTypes)) :
    ∃ msg, validateImages imageFiles = some msg := by
  unfold validateImages
  by_cases hlen : imageFiles.length = 0
  · simp [hlen]
  · have hlen2 : (imageFiles.length == 0) = false := by
      simpa using hlen
    rw [hlen2]
    simp only [Bool.false_eq_true, if_false]
    cases hfs : imageFiles.find? (fun f => decide (maxSize < f.size)) with
    | some f => exact ⟨_, rfl⟩
    | none =>
      cases hft : imageFiles.find? (fun f => !(allowedTypes.contains f.mimeType)) with
      | some f => exact ⟨_, rfl⟩
      | none =>
        exfalso
        rcases hbad with h | ⟨f, hf, hsz⟩ | ⟨f, hf, hty⟩
        · exact hlen (by simp [h])
        · have hnone := List.find?_eq_none.mp hfs f hf
          simp only [decide_eq_true_eq] at hnone
          exact hnone hsz
        · have hnone := List.find?_eq_none.mp hft f hf
          simp only [Bool.not_eq_true', Bool.not_eq_false] at hnone
          exact hty (by simpa [List.contains, List.elem_iff] using hnone)

/-- Claim C5: `createItem` validates its image inputs before any backend call: for
every input with an empty image list, an oversized file (over 5 * 1024 * 1024 bytes),
or a file whose MIME type is not one of image/jpeg, image/jpg, image/png, image/gif,
image/webp, it throws and the backend state is returned unchanged (in particular no
item document is created). -/
theorem createItem_rejects_invalid_images (db : DB) (newId : Str) (now : Nat)
    (itemData : ItemInput) (imageFiles : List FileInput) (uploadedPaths : List Str)
    (uploadResult : Except Str (List Str))
    (hbad : imageFiles = [] ∨ (∃ f ∈ imageFiles, maxSize < f.size) ∨
      (∃ f ∈ imageFiles, f.mimeType ∉ allowedTypes)) :
    ∃ msg, createItem db newId now itemData imageFiles uploadedPaths uploadResult =
      (Except.error msg, db) := by
  obtain ⟨msg, hmsg⟩ := validateImages_some_of_invalid imageFiles hbad
  exact ⟨msg, by simp [createItem, hmsg]⟩

/-- Witness for C5: an oversized file is rejected with the state unchanged. -/
theorem createItem_rejects_invalid_images_witness :
    ∃ msg, createItem dbW ("i1".toList) 5 inputW [fileBigW] [] (Except.ok []) =
      (Except.error msg, dbW) :=
  createItem_rejects_invalid_images dbW ("i1".toList) 5 inputW [fileBigW] []
    (Except.ok []) (Or.inr (Or.inl ⟨fileBigW, by decide, by decide⟩))

/-- Claim C1: when the initial item document is created successfully (the validation
passed and `addDoc` produced a fresh id) but the image upload fails, `createItem`
deletes the item document it created and rethrows the upload error: the items
collection (and every other collection) is exactly as before the call, the only
residue being whatever storage objects the failed upload attempt had already
written. -/
theorem createItem_compensates_on_upload_failure (db : DB) (newId : Str) (now : Nat)
    (itemData : ItemInput) (imageFiles : List FileInput) (uploadedPaths : List Str)
    (uploadError : Str)
    (hvalid : validateImages imageFiles = none)
    (hfresh : ∀ p ∈ db.items, p.1 ≠ newId) :
    createItem db newId now itemData imageFiles uploadedPaths (Except.error uploadError) =
      (Except.error uploadError, { db with storage := db.storage ++ uploadedPaths }) := by
  have hkeep : ∀ d : ItemDoc, deleteDocAt (db.items ++ [(newId, d)]) newId = db.items := by
    intro d
    unfold deleteDocAt
    rw [List.filter_append]
    have h1 : db.items.filter (fun p => p.1 != newId) = db.items :=
      List.filter_eq_self.mpr (fun p hp => by simpa [bne_iff_ne] using hfresh p hp)
    have h2 : [(newId, d)].filter (fun p : Str × ItemDoc => p.1 != newId) = [] := by
      simp
    rw [h1, h2, List.append_nil]
  simp only [createItem, hvalid]
  rw [hkeep]

/-- Witness for C1: a failing upload leaves the sample state's collections intact
and rethrows the upload error. -/
theorem createItem_compensates_on_upload_failure_witness :
    createItem dbW ("i1".toList) 5 inputW [fileW] [("items/i1/x.png".toList)]
        (Except.error ("Failed to upload images. Please try again.".toList)) =
      (Except.error ("Failed to upload images. Please try again.".toList),
        { dbW with storage := dbW.storage ++ [("items/i1/x.png".toList)] }) :=
  createItem_compensates_on_upload_failure dbW ("i1".toList) 5 inputW [fileW]
    [("items/i1/x.png".toList)] ("Failed to upload images. Please try again.".toList)
    (by decide) (by decide)

/-- Claim C3: `getConversationMessages` returns exactly the messages whose
`conversationId` equals the given id (as a permutation of the unordered backend
query result), sorted ascending by timestamp client-side, and the snapshot delivered
by `subscribeToMessages` is the very same list. -/
theorem getConversationMessages_spec (db : DB) (conversationId : Str) :
    (getConversationMessages db conversationId).Perm (convMsgs db conversationId) ∧
    (∀ m, m ∈ getConversationMessages db conversationId ↔
      m ∈ db.messages ∧ m.2.conversationId = conversationId) ∧
    List.Sorted msgTsLe (getConversationMessages db conversationId) ∧
    subscribeToMessagesSnapshot db conversationId = getConversationMessages db conversationId := by
  refine ⟨List.perm_insertionSort _ _, ?_, List.sorted_insertionSort _ _, rfl⟩
  intro m
  unfold getConversationMessages
  rw [(List.perm_insertionSort msgTsLe (convMsgs db conversationId)).mem_iff]
  unfold convMsgs
  simp [List.mem_filter]

/-- A conversation document about `itemId` whose participants include both the buyer
and the seller. -/
def convMatches (c : ConvDoc) (itemId buyerId sellerId : Str) : Prop :=
  c.itemId = itemId ∧ buyerId ∈ c.participants ∧ sellerId ∈ c.participants

/-- The existence check inside `createConversation` succeeds exactly when some
conversation for the item contains both participants. -/
theorem createConversation_find_iff (db : DB) (itemId buyerId sellerId : Str) :
    ((db.conversations.filter
        (fun p => p.2.itemId == itemId && p.2.participants.contains buyerId)).find?
      (fun p => p.2.participants.contains sellerId)).isSome = true ↔
    ∃ p ∈ db.conversations, convMatches p.2 itemId buyerId sellerId := by
  rw [List.find?_isSome]
  unfold convMatches
  constructor
  · rintro ⟨x, hx, hsel⟩
    rw [List.mem_filter] at hx
    obtain ⟨hmem, hflt⟩ := hx
    rw [Bool.and_eq_true] at hflt
    refine ⟨x, hmem, ?_, ?_, ?_⟩
    · simpa using hflt.1
    · simpa [List.contains, List.elem_iff] using hflt.2
    · simpa [List.contains, List.elem_iff] using hsel
  · rintro ⟨p, hp, h1, h2, h3⟩
    refine ⟨p, List.mem_filter.mpr ⟨hp, ?_⟩, ?_⟩
    · rw [Bool.and_eq_true]
      exact ⟨by simpa using h1, by simpa [List.contains, List.elem_iff] using h2⟩
    · simpa [List.contains, List.elem_iff] using h3

/-- Claim C2: `createConversation` is idempotent per item and buyer-seller pair.
When a conversation for the item already contains both the buyer and the seller,
the call leaves the state unchanged and returns the id of such an existing
conversation; otherwise it appends exactly one new conversation whose participants
are exactly the buyer and the seller, touching nothing else. -/
theorem createConversation_idempotent (db : DB) (newId : Str) (now : Nat)
    (itemId buyerId sellerId : Str) :
    ((∃ p ∈ db.conversations, convMatches p.2 itemId buyerId sellerId) →
      (createConversation db newId now itemId buyerId sellerId).2 = db ∧
      ∃ c, ((createConversation db newId now itemId buyerId sellerId).1, c) ∈
          db.conversations ∧
        convMatches c itemId buyerId sellerId) ∧
    ((¬ ∃ p ∈ db.conversations, convMatches p.2 itemId buyerId sellerId) →
      (createConversation db newId now itemId buyerId sellerId).1 = newId ∧
      (createConversation db newId now itemId buyerId sellerId).2.conversations =
        db.conversations ++ [(newId, ⟨itemId, [buyerId, sellerId], now, now⟩)] ∧
      (createConversation db newId now itemId buyerId sellerId).2.users = db.users ∧
      (createConversation db newId now itemId buyerId sellerId).2.items = db.items ∧
      (createConversation db newId now itemId buyerId sellerId).2.messages = db.messages ∧
      (createConversation db newId now itemId buyerId sellerId).2.authUsers = db.authUsers ∧
      (createConversation db newId now itemId buyerId sellerId).2.storage = db.storage) := by
  constructor
  · intro hex
    have hsome := (createConversation_find_iff db itemId buyerId sellerId).mpr hex
    rw [Option.isSome_iff_exists] at hsome
    obtain ⟨q, hq⟩ := hsome
    have hmemf := List.mem_of_find?_eq_some hq
    rw [List.mem_filter] at hmemf
    obtain ⟨hmem, hflt⟩ := hmemf
    rw [Bool.and_eq_true] at hflt
    have hsel := List.find?_some hq
    unfold createConversation
    rw [hq]
    refine ⟨rfl, q.2, ?_, ?_, ?_, ?_⟩
    · simpa using hmem
    · simpa using hflt.1
    · simpa [List.contains, List.elem_iff] using hflt.2
    · simpa [List.contains, List.elem_iff] using hsel
  · intro hnone
    have h0 : ((db.conversations.filter
        (fun p => p.2.itemId == itemId && p.2.participants.contains buyerId)).find?
      (fun p => p.2.participants.contains sellerId)) = none := by
      rw [← Option.not_isSome_iff_eq_none]
      intro hs
      exact hnone ((createConversation_find_iff db itemId buyerId sellerId).mp hs)
    unfold createConversation
    rw [h0]
    exact ⟨rfl, rfl, rfl, rfl, rfl, rfl, rfl⟩

/-- Witness for C2: in the sample state, the conversation about item `i0` between
`u2` and `u1` already exists, so the call returns with the state unchanged. -/
theorem createConversation_idempotent_witness :
    (createConversation dbW ("c9".toList) 7 ("i0".toList) ("u2".toList) ("u1".toList)).2 = dbW :=
  ((createConversation_idempotent dbW ("c9".toList) 7 ("i0".toList) ("u2".toList)
    ("u1".toList)).1 ⟨(("c1".toList), convW), by decide, by decide, by decide, by decide⟩).1

/-- Lookup on a cons cell: hit the head when its key matches, else recurse. -/
theorem getDocOpt_cons {α : Type} (q : Str × α) (ps : Docs α) (id : Str) :
    getDocOpt (q :: ps) id = if q.1 == id then some q.2 else getDocOpt ps id := by
  unfold getDocOpt
  by_cases h : (q.1 == id) = true
  · rw [@List.find?_cons_of_pos _ (fun p => p.1 == id) q ps h, if_pos h]
    rfl
  · rw [@List.find?_cons_of_neg _ (fun p => p.1 == id) q ps h, if_neg h]

/-- Updating a document leaves the lookup of every other id unchanged. -/
theorem getDocOpt_updateDocAt_ne {α : Type} (docs : Docs α) (id id2 : Str) (f : α → α)
    (hne : id2 ≠ id) :
    getDocOpt (updateDocAt docs id f) id2 = getDocOpt docs id2 := by
  induction docs with
  | nil => rfl
  | cons p ps ih =>
    have hstep : updateDocAt (p :: ps) id f =
        (if p.1 == id then (p.1, f p.2) else p) :: updateDocAt ps id f := rfl
    rw [hstep, getDocOpt_cons, getDocOpt_cons]
    by_cases h : (p.1 == id) = true
    · have hp1 : p.1 = id := by simpa using h
      have h2 : (p.1 == id2) = false := by
        rw [beq_eq_false_iff_ne, hp1]
        exact fun hh => hne hh.symm
      simp [h, h2, ih]
    · rw [Bool.not_eq_true] at h
      by_cases h2 : (p.1 == id2) = true
      · simp [h, h2]
      · rw [Bool.not_eq_true] at h2
        simp [h, h2, ih]

/-- Updating a document maps its own lookup through the update function. -/
theorem getDocOpt_updateDocAt_self {α : Type} (docs : Docs α) (id : Str) (f : α → α) :
    getDocOpt (updateDocAt docs id f) id = (getDocOpt docs id).map f := by
  induction docs with
  | nil => rfl
  | cons p ps ih =>
    have hstep : updateDocAt (p :: ps) id f =
        (if p.1 == id then (p.1, f p.2) else p) :: updateDocAt ps id f := rfl
    rw [hstep, getDocOpt_cons, getDocOpt_cons]
    by_cases h : (p.1 == id) = true
    · simp [h]
    · rw [Bool.not_eq_true] at h
      simp [h, ih]

/-- Claim C7: every successful `sendMessage` call appends exactly one message with
the given conversation id, sender and content, `isRead` initialized to `false` and
the fresh timestamp, and refreshes `updatedAt` of exactly that conversation (which
must exist for the call to succeed); every other conversation, and every other part
of the state, is untouched. -/
theorem sendMessage_spec (db : DB) (newMsgId : Str) (now1 now2 : Nat)
    (conversationId senderId content : Str) (db2 : DB)
    (hok : sendMessage db newMsgId now1 now2 conversationId senderId content =
      Except.ok db2) :
    db2.messages = db.messages ++
      [(newMsgId, ⟨conversationId, senderId, content, now1, false⟩)] ∧
    hasDoc db.conversations conversationId = true ∧
    (∀ c, getDocOpt db.conversations conversationId = some c →
      getDocOpt db2.conversations conversationId = some { c with updatedAt := now2 }) ∧
    (∀ id2, id2 ≠ conversationId →
      getDocOpt db2.conversations id2 = getDocOpt db.conversations id2) ∧
    db2.users = db.users ∧ db2.items = db.items ∧ db2.authUsers = db.authUsers ∧
    db2.storage = db.storage := by
  unfold sendMessage at hok
  by_cases hc : hasDoc db.conversations conversationId = true
  · simp only [hc, if_true] at hok
    rw [Except.ok.injEq] at hok
    subst hok
    refine ⟨rfl, hc, ?_, ?_, rfl, rfl, rfl, rfl⟩
    · intro c hcse
      show getDocOpt (updateDocAt db.conversations conversationId
        (fun c => { c with updatedAt := now2 })) conversationId = _
      rw [getDocOpt_updateDocAt_self, hcse]
      rfl
    · intro id2 hne
      show getDocOpt (updateDocAt db.conversations conversationId
        (fun c => { c with updatedAt := now2 })) id2 = _
      exact getDocOpt_updateDocAt_ne db.conversations conversationId id2 _ hne
  · rw [Bool.not_eq_true] at hc
    simp only [hc, Bool.false_eq_true, if_false] at hok
    cases hok

/-- The sample state after sending one more message in conversation `c1`. -/
def dbW2 : DB :=
  { dbW with
      messages := dbW.messages ++
        [(("m2".toList), ⟨("c1".toList), ("u1".toList), ("yo".toList), 9, false⟩)],
      conversations := updateDocAt dbW.conversations ("c1".toList)
        (fun c => { c with updatedAt := 9 }) }

/-- Witness for C7: sending a message in the sample conversation `c1` succeeds and
appends exactly that message. -/
theorem sendMessage_spec_witness :
    dbW2.messages = dbW.messages ++
      [(("m2".toList), ⟨("c1".toList), ("u1".toList), ("yo".toList), 9, false⟩)] :=
  (sendMessage_spec dbW ("m2".toList) 9 9 ("c1".toList) ("u1".toList) ("yo".toList)
    dbW2 (by rfl)).1

/-- Image cleanup only ever removes storage objects, it never adds any. -/
theorem deleteItemImages_subset (parsePath : Str → Option Str) (deleteOk : Str → Bool)
    (imageUrls : List Str) :
    ∀ storage, ∀ q ∈ deleteItemImages parsePath deleteOk storage imageUrls,
      q ∈ storage := by
  induction imageUrls with
  | nil => intro storage q hq; exact hq
  | cons u us ih =>
    intro storage q hq
    have h1 : q ∈ deleteOneImage parsePath deleteOk storage u :=
      ih (deleteOneImage parsePath deleteOk storage u) q hq
    unfold deleteOneImage at h1
    cases hp : parsePath u with
    | none => simp only [hp] at h1; exact h1
    | some pth =>
      simp only [hp] at h1
      by_cases hok : deleteOk pth = true
      · rw [if_pos hok] at h1
        exact (List.mem_filter.mp h1).1
      · rw [if_neg hok] at h1
        exact h1

/-- A successfully deleted image object stays deleted through the rest of the loop,
whatever happens to the other images (no rollback). -/
theorem deleteItemImages_removes (parsePath : Str → Option Str) (deleteOk : Str → Bool)
    (imageUrls : List Str) (url pth : Str)
    (hp : parsePath url = some pth) (hok : deleteOk pth = true) :
    ∀ storage, url ∈ imageUrls →
      pth ∉ deleteItemImages parsePath deleteOk storage imageUrls := by
  induction imageUrls with
  | nil => intro storage hin; cases hin
  | cons u us ih =>
    intro storage hin
    rcases List.mem_cons.mp hin with rfl | hin2
    · intro hmem
      have h1 : pth ∈ deleteOneImage parsePath deleteOk storage url :=
        deleteItemImages_subset parsePath deleteOk us
          (deleteOneImage parsePath deleteOk storage url) pth hmem
      unfold deleteOneImage at h1
      simp only [hp] at h1
      rw [if_pos hok] at h1
      have h2 := (List.mem_filter.mp h1).2
      simp at h2
    · exact ih (deleteOneImage parsePath deleteOk storage u) hin2

/-- Deleting a document makes its own lookup fail. -/
theorem getDocOpt_deleteDocAt_self {α : Type} (docs : Docs α) (id : Str) :
    getDocOpt (deleteDocAt docs id) id = none := by
  unfold getDocOpt deleteDocAt
  have h : (docs.filter (fun p => p.1 != id)).find? (fun p => p.1 == id) = none :=
    List.find?_eq_none.mpr (fun x hx => by
      have h2 := (List.mem_filter.mp hx).2
      rw [bne_iff_ne] at h2
      simpa using h2)
  rw [h]
  rfl

/-- Claim C6: `deleteItem` reads the item document, deletes its stored images when it
exists and lists any, and then deletes the item document unconditionally: the document
is gone (and the rest of the items collection is untouched) even when the document was
missing or when some or all individual image deletions failed; storage only shrinks,
images whose deletion succeeded stay deleted whatever happened to the others, and a
missing document leaves storage untouched. -/
theorem deleteItem_spec (db : DB) (parsePath : Str → Option Str) (deleteOk : Str → Bool)
    (itemId : Str) :
    getDocOpt (deleteItem db parsePath deleteOk itemId).items itemId = none ∧
    (∀ p, p ∈ (deleteItem db parsePath deleteOk itemId).items ↔
      p ∈ db.items ∧ p.1 ≠ itemId) ∧
    (∀ q ∈ (deleteItem db parsePath deleteOk itemId).storage, q ∈ db.storage) ∧
    (getDocOpt db.items itemId = none →
      (deleteItem db parsePath deleteOk itemId).storage = db.storage) ∧
    (∀ d, getDocOpt db.items itemId = some d → ∀ url ∈ d.images, ∀ pth,
      parsePath url = some pth → deleteOk pth = true →
      pth ∉ (deleteItem db parsePath deleteOk itemId).storage) := by
  refine ⟨getDocOpt_deleteDocAt_self db.items itemId, ?_, ?_, ?_, ?_⟩
  · intro p
    show p ∈ deleteDocAt db.items itemId ↔ _
    unfold deleteDocAt
    rw [List.mem_filter, bne_iff_ne]
  · intro q hq
    revert hq
    show q ∈ (match getDocOpt db.items itemId with
      | none => db.storage
      | some itemData =>
        if 0 < itemData.images.length then
          deleteItemImages parsePath deleteOk db.storage itemData.images
        else db.storage) → q ∈ db.storage
    cases hd : getDocOpt db.items itemId with
    | none => exact fun h => h
    | some d =>
      show (q ∈ if 0 < d.images.length then
          deleteItemImages parsePath deleteOk db.storage d.images else db.storage) →
        q ∈ db.storage
      by_cases hl : 0 < d.images.length
      · rw [if_pos hl]
        exact deleteItemImages_subset parsePath deleteOk d.images db.storage q
      · rw [if_neg hl]
        exact fun h => h
  · intro hd
    show (match getDocOpt db.items itemId with
      | none => db.storage
      | some itemData =>
        if 0 < itemData.images.length then
          deleteItemImages parsePath deleteOk db.storage itemData.images
        else db.storage) = db.storage
    simp only [hd]
  · intro d hd url hurl pth hp hok
    show pth ∉ (match getDocOpt db.items itemId with
      | none => db.storage
      | some itemData =>
        if 0 < itemData.images.length then
          deleteItemImages parsePath deleteOk db.storage itemData.images
        else db.storage)
    simp only [hd]
    have hl : 0 < d.images.length := List.length_pos.mpr (List.ne_nil_of_mem hurl)
    rw [if_pos hl]
    exact deleteItemImages_removes parsePath deleteOk d.images url pth hp hok db.storage hurl

/-- Witness for C6: deleting the sample item removes its document and its stored
image object even though the lookup and deletions are best-effort. -/
theorem deleteItem_spec_witness :
    ("items/i0/a.png".toList) ∉
      (deleteItem dbW (fun u => some u) (fun _ => true) ("i0".toList)).storage :=
  (deleteItem_spec dbW (fun u => some u) (fun _ => true) ("i0".toList)).2.2.2.2
    itemW (by decide) ("items/i0/a.png".toList) (by decide) ("items/i0/a.png".toList)
    rfl rfl

/-- A conditional whose positive branch is the literal `false` yields `true` exactly
when the condition fails and the negative branch yields `true`. -/
theorem ite_false_eq_true (c : Bool) (e : Bool) :
    (if c = true then false else e) = true ↔ (c = false ∧ e = true) := by
  cases c <;> simp

/-- The search-query guard of the marketplace filter lets an item through exactly when
no query is given or some searched field matches. -/
theorem searchCond_eq_false (q : Str) (b1 b2 b3 : Bool) :
    (q != [] && !b1 && !b2 && !b3) = false ↔
      (q ≠ [] → (b1 = true ∨ b2 = true ∨ b3 = true)) := by
  by_cases hq : q = []
  · subst hq; simp
  · have h1 : (q != []) = true := by simpa [bne_iff_ne] using hq
    cases b1 <;> cases b2 <;> cases b3 <;> simp [h1, hq]

/-- The category guard of the marketplace filter lets an item through exactly when no
category is selected or the item has that category. -/
theorem catCond_eq_false (cat xcat : Str) :
    (cat != [] && xcat != cat) = false ↔ (cat ≠ [] → xcat = cat) := by
  by_cases hc : cat = []
  · subst hc; simp
  · have h1 : (cat != []) = true := by simpa [bne_iff_ne] using hc
    by_cases h2 : xcat = cat
    · simp [h1, h2, hc]
    · have h3 : (xcat != cat) = true := by simpa [bne_iff_ne] using h2
      simp [h1, h3, hc, h2]

/-- The price guard of the marketplace filter lets an item through exactly when the
price lies in the inclusive range. -/
theorem priceCond_eq_false (lo hi p : Int) :
    (decide (p < lo) || decide (hi < p)) = false ↔ (lo ≤ p ∧ p ≤ hi) := by
  simp [not_lt]

/-- The filter predicate of `Marketplace.tsx` holds exactly for available items in the
price range that match the selected category (when one is selected) and the search
query (when one is given). -/
theorem marketplaceFilter_eq_true (searchQuery selectedCategory : Str)
    (priceLo priceHi : Int) (x : ItemDoc) :
    marketplaceFilter searchQuery selectedCategory priceLo priceHi x = true ↔
      (x.isAvailable = true ∧ priceLo ≤ x.price ∧ x.price ≤ priceHi ∧
       (selectedCategory ≠ [] → x.category = selectedCategory) ∧
       (searchQuery ≠ [] →
         (jsIncludes (jsToLower x.title) (jsToLower searchQuery) = true ∨
          jsIncludes (jsToLower x.description) (jsToLower searchQuery) = true ∨
          jsIncludes (jsToLower x.category) (jsToLower searchQuery) = true))) := by
  unfold marketplaceFilter
  rw [ite_false_eq_true, ite_false_eq_true, ite_false_eq_true,
    searchCond_eq_false, catCond_eq_false, priceCond_eq_false]
  tauto

/-- Claim C8: for every item list and filter combination, the marketplace's filtered
list contains exactly the available items within the inclusive price range that match
the selected category (when one is selected) and whose title, description or category
contains the search query case-insensitively (when a query is given); the result is
sorted per the chosen sort key, with both `newest` and `popular` sorting by descending
creation time. -/
theorem filteredItems_spec (items : List ItemDoc) (searchQuery selectedCategory : Str)
    (priceLo priceHi : Int) (sortKey : SortBy) :
    (filteredItems items searchQuery selectedCategory priceLo priceHi sortKey).Perm
      (items.filter (marketplaceFilter searchQuery selectedCategory priceLo priceHi)) ∧
    (∀ x, x ∈ filteredItems items searchQuery selectedCategory priceLo priceHi sortKey ↔
      (x ∈ items ∧ x.isAvailable = true ∧ priceLo ≤ x.price ∧ x.price ≤ priceHi ∧
       (selectedCategory ≠ [] → x.category = selectedCategory) ∧
       (searchQuery ≠ [] →
         (jsIncludes (jsToLower x.title) (jsToLower searchQuery) = true ∨
          jsIncludes (jsToLower x.description) (jsToLower searchQuery) = true ∨
          jsIncludes (jsToLower x.category) (jsToLower searchQuery) = true)))) ∧
    (sortKey = SortBy.priceLow → List.Sorted priceLe
      (filteredItems items searchQuery selectedCategory priceLo priceHi sortKey)) ∧
    (sortKey = SortBy.priceHigh → List.Sorted priceGe
      (filteredItems items searchQuery selectedCategory priceLo priceHi sortKey)) ∧
    (sortKey = SortBy.newest ∨ sortKey = SortBy.popular → List.Sorted createdGe
      (filteredItems items searchQuery selectedCategory priceLo priceHi sortKey)) := by
  have hperm : ∀ sk : SortBy,
      (filteredItems items searchQuery selectedCategory priceLo priceHi sk).Perm
        (items.filter (marketplaceFilter searchQuery selectedCategory priceLo priceHi)) := by
    intro sk
    cases sk <;> exact List.perm_insertionSort _ _
  refine ⟨hperm sortKey, ?_, ?_, ?_, ?_⟩
  · intro x
    rw [(hperm sortKey).mem_iff, List.mem_filter, marketplaceFilter_eq_true]
  · rintro rfl
    exact List.sorted_insertionSort _ _
  · rintro rfl
    exact List.sorted_insertionSort _ _
  · rintro (rfl | rfl) <;> exact List.sorted_insertionSort _ _

/-- Witness for C8: with the low-to-high price sort selected, the sample result is
sorted by ascending price. -/
theorem filteredItems_spec_witness :
    List.Sorted priceLe (filteredItems [itemW] [] [] 0 100 SortBy.priceLow) :=
  (filteredItems_spec [itemW] [] [] 0 100 SortBy.priceLow).2.2.1 rfl

/-- Unfolding membership in `getUserConversations`: the views are built from the
conversations of the user. -/
theorem mem_getUserConversations (db : DB) (userId : Str) (v : ConvView) :
    v ∈ getUserConversations db userId ↔
      ∃ p, p ∈ db.conversations ∧ p.2.participants.contains userId = true ∧
        buildConvView db p = some v := by
  unfold getUserConversations
  rw [(List.perm_insertionSort convUpdGe _).mem_iff, List.mem_filterMap]
  constructor
  · rintro ⟨p, hp, hb⟩
    rw [List.mem_filter] at hp
    exact ⟨p, hp.1, hp.2, hb⟩
  · rintro ⟨p, hp, hc, hb⟩
    exact ⟨p, List.mem_filter.mpr ⟨hp, hc⟩, hb⟩

/-- Inversion of the per-conversation view builder: it succeeds exactly by finding the
item and its seller, and fixes the view's id, `updatedAt` and denormalized last
message. -/
theorem buildConvView_eq_some (db : DB) (p : Str × ConvDoc) (v : ConvView)
    (h : buildConvView db p = some v) :
    ∃ itemData sellerData,
      getDocOpt db.items p.2.itemId = some itemData ∧
      getDocOpt db.users itemData.sellerId = some sellerData ∧
      v.id = p.1 ∧ v.updatedAt = p.2.updatedAt ∧
      v.lastMessage = (List.insertionSort msgTsGe (convMsgs db p.1)).head? := by
  unfold buildConvView at h
  cases hi : getDocOpt db.items p.2.itemId with
  | none => simp [hi] at h
  | some itemData =>
    simp only [hi] at h
    cases hs : getDocOpt db.users itemData.sellerId with
    | none => simp [hs] at h
    | some sellerData =>
      simp only [hs, Option.some.injEq] at h
      subst h
      exact ⟨itemData, sellerData, rfl, hs, rfl, rfl, rfl⟩

/-- The head of the descending-timestamp sort of a conversation's messages is absent
exactly when the conversation has no messages, and otherwise is one of its messages
with the greatest timestamp. -/
theorem lastMessage_head_spec (db : DB) (cid : Str) :
    ((List.insertionSort msgTsGe (convMsgs db cid)).head? = none ↔
      convMsgs db cid = []) ∧
    (∀ m, (List.insertionSort msgTsGe (convMsgs db cid)).head? = some m →
      m ∈ convMsgs db cid ∧ ∀ m2 ∈ convMsgs db cid, m2.2.timestamp ≤ m.2.timestamp) := by
  constructor
  · rw [List.head?_eq_none_iff]
    constructor
    · intro h
      have hperm := List.perm_insertionSort msgTsGe (convMsgs db cid)
      rw [h] at hperm
      exact hperm.symm.eq_nil
    · intro h
      rw [h]
      rfl
  · intro m hm
    cases hL : List.insertionSort msgTsGe (convMsgs db cid) with
    | nil => rw [hL] at hm; cases hm
    | cons a tail =>
      rw [hL] at hm
      rw [List.head?_cons, Option.some.injEq] at hm
      subst hm
      have hperm := List.perm_insertionSort msgTsGe (convMsgs db cid)
      have hsorted := List.sorted_insertionSort msgTsGe (convMsgs db cid)
      rw [hL] at hperm hsorted
      refine ⟨hperm.mem_iff.mp (List.mem_cons_self _ _), ?_⟩
      intro m2 hm2
      have hmem : m2 ∈ a :: tail := hperm.mem_iff.mpr hm2
      rcases List.mem_cons.mp hmem with rfl | htail
      · exact Nat.le_refl _
      · exact List.rel_of_sorted_cons hsorted m2 htail

/-- Claim C4: `getUserConversations` returns conversation views sorted by descending
`updatedAt`; each view's `lastMessage` is absent exactly when the conversation has no
messages and otherwise is one of its messages with the greatest timestamp; every
returned view comes from a conversation of the user whose item and item's seller both
exist, and every conversation of the user whose item and seller exist is returned. -/
theorem getUserConversations_spec (db : DB) (userId : Str) :
    List.Sorted convUpdGe (getUserConversations db userId) ∧
    (∀ v ∈ getUserConversations db userId,
      (v.lastMessage = none ↔ convMsgs db v.id = []) ∧
      (∀ m, v.lastMessage = some m →
        m ∈ convMsgs db v.id ∧ ∀ m2 ∈ convMsgs db v.id, m2.2.timestamp ≤ m.2.timestamp)) ∧
    (∀ v ∈ getUserConversations db userId,
      ∃ p, p ∈ db.conversations ∧ v.id = p.1 ∧ userId ∈ p.2.participants ∧
        ∃ itemData, getDocOpt db.items p.2.itemId = some itemData ∧
          ∃ sellerData, getDocOpt db.users itemData.sellerId = some sellerData) ∧
    (∀ p ∈ db.conversations, userId ∈ p.2.participants →
      ∀ itemData, getDocOpt db.items p.2.itemId = some itemData →
      ∀ sellerData, getDocOpt db.users itemData.sellerId = some sellerData →
      ∃ v ∈ getUserConversations db userId, v.id = p.1) := by
  refine ⟨?_, ?_, ?_, ?_⟩
  · show List.Sorted convUpdGe (List.insertionSort convUpdGe _)
    exact List.sorted_insertionSort _ _
  · intro v hv
    rw [mem_getUserConversations] at hv
    obtain ⟨p, hp, hcont, hb⟩ := hv
    obtain ⟨itemData, sellerData, hi, hs, hid, hupd, hlast⟩ := buildConvView_eq_some db p v hb
    rw [hid, hlast]
    exact ⟨(lastMessage_head_spec db p.1).1, (lastMessage_head_spec db p.1).2⟩
  · intro v hv
    rw [mem_getUserConversations] at hv
    obtain ⟨p, hp, hcont, hb⟩ := hv
    obtain ⟨itemData, sellerData, hi, hs, hid, _, _⟩ := buildConvView_eq_some db p v hb
    exact ⟨p, hp, hid, by simpa [List.contains, List.elem_iff] using hcont,
      itemData, hi, sellerData, hs⟩
  · intro p hp hmem itemData hi sellerData hs
    have hb : buildConvView db p = some
        ⟨p.1, p.2.participants.filterMap (fun pid => getDocOpt db.users pid),
          ⟨p.2.itemId, itemData, sellerData⟩,
          (List.insertionSort msgTsGe (convMsgs db p.1)).head?, p.2.updatedAt⟩ := by
      unfold buildConvView
      simp only [hi, hs]
    refine ⟨⟨p.1, p.2.participants.filterMap (fun pid => getDocOpt db.users pid),
        ⟨p.2.itemId, itemData, sellerData⟩,
        (List.insertionSort msgTsGe (convMsgs db p.1)).head?, p.2.updatedAt⟩, ?_, rfl⟩
    rw [mem_getUserConversations]
    exact ⟨p, hp, by simpa [List.contains, List.elem_iff] using hmem, hb⟩

/-- Witness for C4: the sample conversation `c1` of user `u1` has an existing item
and seller, so it appears in the returned views. -/
theorem getUserConversations_spec_witness :
    ∃ v ∈ getUserConversations dbW ("u1".toList), v.id = ("c1".toList) :=
  (getUserConversations_spec dbW ("u1".toList)).2.2.2 (("c1".toList), convW)
    (by decide) (by decide) itemW (by decide) userW (by decide)

end HuskyMarket
